import Mathlib

/-!
Verification development for the data-describe loading utility
(`mwdata/utilities/load_data.py`).

The Python module has three functions:
  * `load_data(filepath, all_folders=False, **kwargs)` — entry point,
  * `read_file_type(filepath, **kwargs)` — extension dispatch,
  * `download_gcs_file(filepath, bucket, prefix, **kwargs)` — remote fetcher.

We embed them shallowly.  The local filesystem and the cloud-store
client are abstract environments (`FS`, `Store`); the external readers
(pandas / geopandas) are represented by a `ReaderCall` value recording
exactly which reader was invoked and with which arguments, and each
remote-fetcher invocation is recorded as a `FetchCall`.  Python string
operations (`os.path.splitext`, `str.split`, substring tests, the three
`re.search` patterns of `read_file_type`) are translated to structural
recursion over `List Char` so that every definition evaluates inside the
kernel.
-/

namespace LoadData

/-- Character class of the regex fragment `[\w-]` (ASCII reading of
Python's `\w` plus the hyphen). -/
def isWordDash (c : Char) : Bool :=
  c.isAlphanum || c == '_' || c == '-'

/-- Containment of one list in another as a contiguous run (the
substring test underlying Python's `in` on strings). -/
def infixOf [BEq α] : List α → List α → Bool
  | needle, [] => needle.isEmpty
  | needle, x :: tail => needle.isPrefixOf (x :: tail) || infixOf needle tail

/-- Python's `needle in hay` substring containment test. -/
def strContains (hay needle : String) : Bool :=
  infixOf needle.data hay.data

/-- Python's `s.endswith(suffix)`. -/
def strEndsWith (s suf : String) : Bool :=
  suf.data.isSuffixOf s.data

/-- Python's `fpath.split("/")[-1]`: the final `/`-separated segment
(the whole string when no `/` occurs). -/
def baseName (s : String) : String :=
  String.mk ((s.data.reverse.takeWhile (fun c => c != '/')).reverse)

/-- The extension part of CPython's `os.path.splitext` (posix rules):
the suffix starting at the last `.` of the final path segment, provided
some character of that segment strictly before the last `.` is not
itself a `.` (so dotfiles such as `.bashrc` have no extension). -/
def splitextExt (p : String) : String :=
  let base := p.data.reverse.takeWhile (fun c => c != '/')
  let afterDot := base.takeWhile (fun c => c != '.')
  match base.drop afterDot.length with
  | [] => ""
  | _ :: pre =>
    if pre.any (fun c => c != '.') then String.mk ('.' :: afterDot.reverse)
    else ""

/-- Python's `os.path.join(a, b)` for the cases arising here: an
absolute second component wins, otherwise a single `/` separates the
parts. -/
def joinPath (a b : String) : String :=
  if b.data.take 1 == ['/'] then b
  else if a.data == [] || a.data.getLast? == some '/' then a ++ b
  else a ++ "/" ++ b

/-- A keyword value passed through `**kwargs`. -/
inductive Val where
  | str (s : String)
  | bool (b : Bool)
  | nat (n : Nat)
  deriving DecidableEq, Repr

/-- The `**kwargs` dictionary: an association list with distinct keys. -/
def Options := List (String × Val)
  deriving DecidableEq, Repr

/-- Python's `kwargs.pop(k, default)` split into the looked-up value
(if present) and the dictionary with the key removed. -/
def popKw (k : String) (kw : Options) : Option Val × Options :=
  (List.lookup k kw, List.filter (fun kv => kv.1 != k) kw)

/-! ### The three `re.search` patterns of `read_file_type` -/

/-- The tail `.shp` of the pattern `/[\w-]*.shp`: the unescaped `.`
matches any character except a newline, then the literal `shp`. -/
def shpAt : List Char → Option (List Char)
  | c :: 's' :: 'h' :: 'p' :: _ => if c != '\n' then some [c, 's', 'h', 'p'] else none
  | _ => none

/-- Backtracking match of `[\w-]*.shp` at the head of the list, longest
word-run first, exactly as the greedy regex engine tries it.  Returns
the matched characters. -/
def segMatch : List Char → Option (List Char)
  | [] => none
  | c :: cs =>
    if isWordDash c then
      match segMatch cs with
      | some m => some (c :: m)
      | none => shpAt (c :: cs)
    else shpAt (c :: cs)

/-- Leftmost match of `re.search(r"/[\w-]*.shp", s)` over the character
list. -/
def fileChars : List Char → Option (List Char)
  | [] => none
  | c :: cs =>
    if c == '/' then
      match segMatch cs with
      | some m => some ('/' :: m)
      | none => fileChars cs
    else fileChars cs

/-- `re.search(r"/[\w-]*.shp", filepath)`, the `file` extraction. -/
def fileOf (s : String) : Option String :=
  (fileChars s.data).map String.mk

/-- Leftmost match of `re.search(r"(?<=gs://)[\w-]*", s)`: the greedy
word-run right after the first occurrence of `gs://`. -/
def bucketChars : List Char → Option (List Char)
  | [] => none
  | c :: cs =>
    if ['g', 's', ':', '/', '/'].isPrefixOf (c :: cs) then
      some (((c :: cs).drop 5).takeWhile isWordDash)
    else bucketChars cs

/-- `re.search(r"(?<=gs://)[\w-]*", filepath)`, the `bucket`
extraction. -/
def bucketOf (s : String) : Option String :=
  (bucketChars s.data).map String.mk

/-- Greedy match of `.*/` at the head of the list: `.` cannot cross a
newline, and the final `/` is the last one reachable. -/
def dotStarSlash (cs : List Char) : Option (List Char) :=
  let p := cs.takeWhile (fun c => c != '\n')
  let r := p.reverse.dropWhile (fun c => c != '/')
  if r.isEmpty then none else some r.reverse

/-- Leftmost match of `re.search(bucket + ".*/", s)` (the bucket name
contains only `[\w-]` characters, so it is a literal). -/
def pfxChars (b : List Char) : List Char → Option (List Char)
  | [] => none
  | c :: cs =>
    if b.isPrefixOf (c :: cs) then
      match dotStarSlash ((c :: cs).drop b.length) with
      | some m => some (b ++ m)
      | none => pfxChars b cs
    else pfxChars b cs

/-- `re.search(r"{0}.*/".format(bucket), filepath)`, the `prefix`
extraction. -/
def pfxOf (b s : String) : Option String :=
  (pfxChars b.data s.data).map String.mk

/-! ### Environments and result model -/

/-- Abstract local filesystem: existence tests, `os.listdir`,
`os.walk` (as the list of `(root, files)` pairs the walk yields, in
order), and reading a file's full text under an encoding. -/
structure FS where
  isFile : String → Bool
  isDir : String → Bool
  listdir : String → List String
  walk : String → List (String × List String)
  read : String → Val → String

/-- Abstract cloud-store client: `bucket(b).list_blobs(prefix=p,
max_results=m)` returns the names of the listed objects, in order. -/
structure Store where
  listBlobs : String → Option String → Option Val → List String

/-- One invocation of `download_gcs_file`: the target filename it was
given, the local paths it downloaded to (in order), and its returned
shapefile path. -/
structure FetchCall where
  target : String
  staged : List String
  ret : Option String
  deriving DecidableEq, Repr

/-- The external reader invocation a `read_file_type` call ends in,
with the exact arguments forwarded. -/
inductive ReaderCall where
  | csv (path : String) (kw : Options)
  | json (path : String) (lines : Val) (kw : Options)
  | geo (path : Option String) (kw : Options)
  | excel (path : String) (kw : Options)
  | csvSep (path : String) (sep : Val) (kw : Options)
  deriving DecidableEq, Repr

/-- Errors: the `FileNotFoundError` raised by `load_data` (carrying the
offending path), and the `AttributeError` raised when one of the
`re.search` calls in `read_file_type` returns `None` and `.group(0)` is
taken on it. -/
inductive LoadErr where
  | pathNotFound (p : String)
  | attributeError
  deriving DecidableEq, Repr

/-- The value `load_data` produces: either the dispatcher's result
(fetch trace plus reader call) or the directory branch's rows of text
file contents. -/
inductive LoadResult where
  | fromReader (r : List FetchCall × ReaderCall)
  | textRows (rows : List String)
  deriving DecidableEq, Repr

/-! ### The three functions -/

/-- `GEO_EXTENSIONS` from the source. -/
def GEO_EXTENSIONS : List String := [".dbf", ".shp", ".shx"]

/-- The `for blob in blobs` loop of `download_gcs_file`, carrying the
downloads made so far and the current `shapefile_dir`. -/
def gcsLoop (tmpdir target : String) :
    List String → List String → Option String → List String × Option String
  | [], dls, sd => (dls, sd)
  | b :: bs, dls, sd =>
    let fname := baseName b
    if fname.data.isEmpty then gcsLoop tmpdir target bs dls sd
    else if strContains target fname then
      gcsLoop tmpdir target bs (dls ++ [joinPath tmpdir fname])
        (if strContains fname ".shp" then some (joinPath tmpdir fname) else sd)
    else gcsLoop tmpdir target bs dls sd

/-- `download_gcs_file(filepath, bucket, prefix, **kwargs)`: pops
`max_results`, lists the blobs, runs the download loop with an empty
download record and `shapefile_dir = None`.  Returns the downloads made
(in order) and the final `shapefile_dir`. -/
def download_gcs_file (store : Store) (tmpdir filepath bucket : String)
    (pfx : Option String) (kw : Options) : List String × Option String :=
  let mr := (popKw "max_results" kw).1
  gcsLoop tmpdir filepath (store.listBlobs bucket pfx mr) [] none

/-- `read_file_type(filepath, **kwargs)`: dispatch on
`os.path.splitext(filepath)[1]`, with the remote-shapefile staging loop
in the `.shp`/`gs://` case.  The `fpath` handed to the geospatial
reader is the return value of the loop's last fetcher call. -/
def read_file_type (store : Store) (tmpdir filepath : String) (kw : Options) :
    Except LoadErr (List FetchCall × ReaderCall) :=
  let extn := splitextExt filepath
  if extn == ".csv" then Except.ok ([], ReaderCall.csv filepath kw)
  else if extn == ".json" then
    let p := popKw "lines" kw
    Except.ok ([], ReaderCall.json filepath (p.1.getD (Val.bool true)) p.2)
  else if extn == ".shp" then
    if strContains filepath "gs://" then
      match bucketOf filepath with
      | none => Except.error LoadErr.attributeError
      | some bucket =>
        match fileOf filepath with
        | none => Except.error LoadErr.attributeError
        | some file =>
          match pfxOf bucket filepath with
          | none => Except.error LoadErr.attributeError
          | some pfx =>
            let calls := GEO_EXTENSIONS.map (fun ext =>
              let r := download_gcs_file store tmpdir (file ++ ext) bucket (some pfx) kw
              FetchCall.mk (file ++ ext) r.1 r.2)
            Except.ok (calls, ReaderCall.geo ((calls.getLast?).bind FetchCall.ret) kw)
    else Except.ok ([], ReaderCall.geo (some filepath) kw)
  else if extn == ".xlsx" then Except.ok ([], ReaderCall.excel filepath kw)
  else
    let p := popKw "sep" kw
    Except.ok ([], ReaderCall.csvSep filepath (p.1.getD (Val.str "\n")) p.2)

/-- `load_data(filepath, all_folders=False, **kwargs)`: file-or-URI
paths go to `read_file_type`; existing directories are scanned for
`.txt` files (immediate listing, or the full walk when `all_folders`),
each read in full with the popped `encoding` (default `"utf-8"`);
anything else raises `FileNotFoundError`. -/
def load_data (fs : FS) (store : Store) (tmpdir filepath : String)
    (all_folders : Bool) (kw : Options) : Except LoadErr LoadResult :=
  if fs.isFile filepath || strContains filepath "gs://" then
    (read_file_type store tmpdir filepath kw).map LoadResult.fromReader
  else if fs.isDir filepath then
    let enc := (popKw "encoding" kw).1.getD (Val.str "utf-8")
    let text :=
      if !all_folders then
        (fs.listdir filepath).foldl (fun acc file =>
          if fs.isFile (joinPath filepath file) && strEndsWith file ".txt" then
            acc ++ [fs.read (joinPath filepath file) enc]
          else acc) []
      else
        (fs.walk filepath).foldl (fun acc rf =>
          rf.2.foldl (fun acc2 file =>
            if strEndsWith file ".txt" then acc2 ++ [fs.read (joinPath rf.1 file) enc]
            else acc2) acc) []
    Except.ok (LoadResult.textRows text)
  else Except.error (LoadErr.pathNotFound filepath)

/-! ### Spec-worded completion condition for the `file` extraction

Modelled from the spec's words in claim C9 only, for comparison with
the code's regex: "a `/`-delimited segment of word characters and
hyphens followed by `.shp`" — i.e. the same search but with the dot
taken literally. -/

/-- Literal-dot variant of `shpAt`: requires the characters `.shp`. -/
def specShpAt : List Char → Option (List Char)
  | '.' :: 's' :: 'h' :: 'p' :: _ => some ['.', 's', 'h', 'p']
  | _ => none

/-- Literal-dot variant of `segMatch`. -/
def specSegMatch : List Char → Option (List Char)
  | [] => none
  | c :: cs =>
    if isWordDash c then
      match specSegMatch cs with
      | some m => some (c :: m)
      | none => specShpAt (c :: cs)
    else specShpAt (c :: cs)

/-- Literal-dot variant of `fileChars`. -/
def specFileChars : List Char → Option (List Char)
  | [] => none
  | c :: cs =>
    if c == '/' then
      match specSegMatch cs with
      | some m => some ('/' :: m)
      | none => specFileChars cs
    else specFileChars cs

/-- Search for a `/`-delimited word-character segment followed by the
literal `.shp`, as the spec sentence behind C9 words the completion
condition of the `file` extraction. -/
def specFileSearch (s : String) : Option String :=
  (specFileChars s.data).map String.mk

/-! ### Sample environments for concrete evaluations -/

/-- A filesystem with no files and no directories. -/
def fsEmpty : FS :=
  ⟨fun _ => false, fun _ => false, fun _ => [], fun _ => [], fun _ _ => ""⟩

/-- A store with no objects. -/
def storeEmpty : Store := ⟨fun _ _ _ => []⟩

/-- A store holding a complete remote shapefile `data/region.shp` with
its `.dbf`/`.shx` sidecar objects in bucket `mybucket`. -/
def storeGeo : Store :=
  ⟨fun b _ _ =>
    if b == "mybucket" then ["data/region.shp", "data/region.dbf", "data/region.shx"]
    else []⟩

/-- A store holding a text object and a folder placeholder marker. -/
def storeTxt : Store := ⟨fun _ _ _ => ["data/notes.txt", "dir/"]⟩

/-- A local directory `/d` with a text file, a non-txt file and a
subdirectory `/d/sub` holding another text file. -/
def fsDir : FS where
  isFile := fun p => (["/d/a.txt", "/d/b.dat", "/d/sub/c.txt"] : List String).contains p
  isDir := fun p => p == "/d" || p == "/d/sub"
  listdir := fun p =>
    if p == "/d" then ["a.txt", "b.dat", "sub"]
    else if p == "/d/sub" then ["c.txt"] else []
  walk := fun p =>
    if p == "/d" then [("/d", ["a.txt", "b.dat"]), ("/d/sub", ["c.txt"])] else []
  read := fun p _ =>
    if p == "/d/a.txt" then "alpha"
    else if p == "/d/sub/c.txt" then "gamma" else "beta"

/-- An existing but empty local directory `/e`. -/
def fsDirEmpty : FS :=
  ⟨fun _ => false, fun p => p == "/e", fun _ => [],
   fun p => if p == "/e" then [("/e", [])] else [], fun _ _ => ""⟩

/-! ### Characterization of the fetcher loop -/

/-- The base names `download_gcs_file` acts on: every listed object's
final path segment, with empty segments skipped, kept exactly when it
is a substring of the target filename. -/
def selNames (target : String) (blobs : List String) : List String :=
  (blobs.map baseName).filter (fun f => !f.data.isEmpty && strContains target f)

/-- The downloads a `gcsLoop` run records: the already-recorded ones
followed by one local temporary path per kept base name, in listing
order. -/
lemma selNames_cons_skip (tgt b : String) (bs : List String)
    (h1 : (baseName b).data.isEmpty = true) :
    selNames tgt (b :: bs) = selNames tgt bs := by
  simp [selNames, List.filter_cons, h1]

/-- A kept head base name leads the selection. -/
lemma selNames_cons_keep (tgt b : String) (bs : List String)
    (h1 : (baseName b).data.isEmpty = false)
    (h2 : strContains tgt (baseName b) = true) :
    selNames tgt (b :: bs) = baseName b :: selNames tgt bs := by
  simp [selNames, List.filter_cons, h1, h2]

/-- A non-substring head base name is dropped from the selection. -/
lemma selNames_cons_drop (tgt b : String) (bs : List String)
    (h1 : (baseName b).data.isEmpty = false)
    (h2 : strContains tgt (baseName b) = false) :
    selNames tgt (b :: bs) = selNames tgt bs := by
  simp [selNames, List.filter_cons, h1, h2]

/-- The downloads a `gcsLoop` run records: the already-recorded ones
followed by one local temporary path per kept base name, in listing
order. -/
lemma gcsLoop_fst (t tgt : String) (bs : List String) (dls : List String)
    (sd : Option String) :
    (gcsLoop t tgt bs dls sd).1 = dls ++ (selNames tgt bs).map (joinPath t) := by
  induction bs generalizing dls sd with
  | nil => simp [gcsLoop, selNames]
  | cons b bs ih =>
    cases h1 : (baseName b).data.isEmpty with
    | true =>
      rw [selNames_cons_skip tgt b bs h1]
      simp [gcsLoop, h1, ih]
    | false =>
      cases h2 : strContains tgt (baseName b) with
      | true =>
        rw [selNames_cons_keep tgt b bs h1 h2]
        simp [gcsLoop, h1, h2, ih]
      | false =>
        rw [selNames_cons_drop tgt b bs h1 h2]
        simp [gcsLoop, h1, h2, ih]

/-- When no kept base name contains `.shp`, the loop leaves
`shapefile_dir` untouched. -/
lemma gcsLoop_snd_none (t tgt : String) (bs : List String) (dls : List String)
    (sd : Option String)
    (h : ∀ f ∈ selNames tgt bs, strContains f ".shp" = false) :
    (gcsLoop t tgt bs dls sd).2 = sd := by
  induction bs generalizing dls sd with
  | nil => simp [gcsLoop]
  | cons b bs ih =>
    cases h1 : (baseName b).data.isEmpty with
    | true =>
      rw [selNames_cons_skip tgt b bs h1] at h
      simp only [gcsLoop, h1]
      simpa using ih dls sd h
    | false =>
      cases h2 : strContains tgt (baseName b) with
      | true =>
        rw [selNames_cons_keep tgt b bs h1 h2] at h
        have hb : strContains (baseName b) ".shp" = false :=
          h (baseName b) (List.mem_cons_self _ _)
        have h' : ∀ f ∈ selNames tgt bs, strContains f ".shp" = false :=
          fun f hf => h f (List.mem_cons_of_mem _ hf)
        simp only [gcsLoop, h1, h2, hb]
        simpa using ih _ sd h'
      | false =>
        rw [selNames_cons_drop tgt b bs h1 h2] at h
        simp only [gcsLoop, h1, h2]
        simpa using ih dls sd h

/-- When the loop returns a shapefile path, it is the temporary path of
some kept base name containing `.shp` — unless it was already the
incoming accumulator. -/
lemma gcsLoop_snd_some (t tgt : String) (bs : List String) (dls : List String)
    (sd : Option String) (r : String)
    (h : (gcsLoop t tgt bs dls sd).2 = some r) :
    (∃ f ∈ selNames tgt bs, strContains f ".shp" = true ∧ r = joinPath t f)
      ∨ sd = some r := by
  induction bs generalizing dls sd with
  | nil =>
    right
    simpa [gcsLoop] using h
  | cons b bs ih =>
    cases h1 : (baseName b).data.isEmpty with
    | true =>
      rw [selNames_cons_skip tgt b bs h1]
      simp only [gcsLoop, h1] at h
      exact ih dls sd (by simpa using h)
    | false =>
      cases h2 : strContains tgt (baseName b) with
      | true =>
        rw [selNames_cons_keep tgt b bs h1 h2]
        simp only [gcsLoop, h1, h2] at h
        rcases ih _ _ (by simpa using h) with hl | hr
        · obtain ⟨f, hf, hs⟩ := hl
          exact Or.inl ⟨f, List.mem_cons_of_mem _ hf, hs⟩
        · cases h3 : strContains (baseName b) ".shp" with
          | true =>
            rw [h3] at hr
            simp only [if_pos rfl] at hr
            exact Or.inl ⟨baseName b, List.mem_cons_self _ _, h3,
              (Option.some_inj.mp hr).symm⟩
          | false =>
            rw [h3] at hr
            simp only [Bool.false_eq_true, if_neg] at hr
            right
            simpa using hr
      | false =>
        rw [selNames_cons_drop tgt b bs h1 h2]
        simp only [gcsLoop, h1, h2] at h
        exact ih dls sd (by simpa using h)

/-! ### Characterization of the directory branch -/

/-- A conditional-append fold is the filtered map, appended. -/
lemma foldl_append_filter {α β : Type} (p : α → Bool) (g : α → β) (l : List α)
    (acc : List β) :
    l.foldl (fun a x => if p x then a ++ [g x] else a) acc
      = acc ++ (l.filter p).map g := by
  induction l generalizing acc with
  | nil => simp
  | cons x l ih =>
    cases h : p x with
    | true => simp [List.filter_cons, h, ih]
    | false => simp [List.filter_cons, h, ih]

/-- The encoding option `load_data` pops: `kwargs.pop("encoding",
"utf-8")`. -/
def encOf (kw : Options) : Val :=
  (popKw "encoding" kw).1.getD (Val.str "utf-8")

/-- Rows of the non-recursive directory scan: one full-text row per
immediate `.txt` file entry, in listing order. -/
def topRows (fs : FS) (d : String) (enc : Val) : List String :=
  ((fs.listdir d).filter (fun f => fs.isFile (joinPath d f) && strEndsWith f ".txt")).map
    (fun f => fs.read (joinPath d f) enc)

/-- Rows of the recursive directory scan: one full-text row per `.txt`
file yielded anywhere in the walk, in walk order. -/
def walkRows (fs : FS) (d : String) (enc : Val) : List String :=
  (fs.walk d).flatMap (fun rf =>
    (rf.2.filter (fun f => strEndsWith f ".txt")).map
      (fun f => fs.read (joinPath rf.1 f) enc))

/-- The nested walk fold is the flattened per-root filtered map. -/
lemma walk_foldl (fs : FS) (enc : Val) (ws : List (String × List String))
    (acc : List String) :
    ws.foldl (fun acc rf =>
        rf.2.foldl (fun acc2 file =>
          if strEndsWith file ".txt" then acc2 ++ [fs.read (joinPath rf.1 file) enc]
          else acc2) acc) acc
      = acc ++ ws.flatMap (fun rf =>
          (rf.2.filter (fun f => strEndsWith f ".txt")).map
            (fun f => fs.read (joinPath rf.1 f) enc)) := by
  induction ws generalizing acc with
  | nil => simp
  | cons rf ws ih =>
    simp only [List.foldl_cons]
    rw [foldl_append_filter (fun f => strEndsWith f ".txt")
      (fun f => fs.read (joinPath rf.1 f) enc), ih]
    simp

/-- The directory branch of `load_data`, characterized. -/
lemma load_data_dir (fs : FS) (store : Store) (t d : String) (af : Bool)
    (kw : Options) (h1 : fs.isFile d = false) (h2 : strContains d "gs://" = false)
    (h3 : fs.isDir d = true) :
    load_data fs store t d af kw =
      Except.ok (LoadResult.textRows
        (if af then walkRows fs d (encOf kw) else topRows fs d (encOf kw))) := by
  unfold load_data
  rw [h1, h2]
  simp only [Bool.or_self, Bool.false_eq_true, if_false, h3, eq_self_iff_true, if_true]
  cases af with
  | false =>
    simp only [Bool.not_false, Bool.false_eq_true, if_false, eq_self_iff_true, if_true]
    rw [foldl_append_filter
      (fun file => fs.isFile (joinPath d file) && strEndsWith file ".txt")
      (fun file => fs.read (joinPath d file) ((popKw "encoding" kw).1.getD (Val.str "utf-8")))]
    simp [topRows, encOf]
  | true =>
    simp only [Bool.not_true, Bool.false_eq_true, if_false, eq_self_iff_true, if_true]
    rw [walk_foldl fs ((popKw "encoding" kw).1.getD (Val.str "utf-8")) (fs.walk d)]
    simp [walkRows, encOf]

/-! ### Error behaviour of the dispatcher -/

/-- The only error `read_file_type` itself produces is the unhandled
`AttributeError` of the remote-shapefile extractions. -/
lemma read_file_type_error (store : Store) (t p : String) (kw : Options)
    (e : LoadErr) (h : read_file_type store t p kw = Except.error e) :
    e = LoadErr.attributeError := by
  simp only [read_file_type] at h
  repeat' split at h
  all_goals first
    | exact Except.noConfusion h
    | (injection h with h; exact h.symm)

/-! ### Shape of a successful `file` extraction -/

/-- A `.shp`-tail match is a non-newline character followed by the
literal `shp`. -/
lemma shpAt_shape (l m : List Char) (h : shpAt l = some m) :
    ∃ c, m = [c, 's', 'h', 'p'] ∧ (c == '\n') = false := by
  unfold shpAt at h
  split at h
  · rename_i c rest
    split at h
    · rename_i hc
      injection h with h
      exact ⟨c, h.symm, by simpa using hc⟩
    · cases h
  · cases h

/-- A `[\w-]*.shp` match is a word-run, then a non-newline character,
then the literal `shp`. -/
lemma segMatch_shape : ∀ l m : List Char, segMatch l = some m →
    ∃ w c, m = w ++ [c, 's', 'h', 'p'] ∧ w.all isWordDash = true
      ∧ (c == '\n') = false := by
  intro l
  induction l with
  | nil => intro m h; cases h
  | cons a l ih =>
    intro m h
    unfold segMatch at h
    split at h
    · rename_i ha
      split at h
      · rename_i m' hm'
        obtain ⟨w, c, hw, hall, hc⟩ := ih m' hm'
        injection h with h
        refine ⟨a :: w, c, ?_, ?_, hc⟩
        · rw [← h, hw]; rfl
        · simp [List.all_cons, ha, hall]
      · obtain ⟨c, hm, hc⟩ := shpAt_shape _ _ h
        exact ⟨[], c, by simpa using hm, rfl, hc⟩
    · obtain ⟨c, hm, hc⟩ := shpAt_shape _ _ h
      exact ⟨[], c, by simpa using hm, rfl, hc⟩

/-- A `/[\w-]*.shp` search hit starts with the slash. -/
lemma fileChars_shape : ∀ l m : List Char, fileChars l = some m →
    ∃ w c, m = '/' :: (w ++ [c, 's', 'h', 'p']) ∧ w.all isWordDash = true
      ∧ (c == '\n') = false := by
  intro l
  induction l with
  | nil => intro m h; cases h
  | cons a l ih =>
    intro m h
    unfold fileChars at h
    split at h
    · split at h
      · rename_i m' hm'
        obtain ⟨w, c, hw, hall, hc⟩ := segMatch_shape _ _ hm'
        injection h with h
        exact ⟨w, c, by rw [← h, hw], hall, hc⟩
      · exact ih m h
    · exact ih m h

/-- The `file` extraction, when it completes, returns a string of the
shape `/` + word-run + any non-newline character + `shp`. -/
lemma fileOf_shape (p s : String) (h : fileOf p = some s) :
    ∃ w c, s.data = '/' :: (w ++ [c, 's', 'h', 'p']) ∧ w.all isWordDash = true
      ∧ (c == '\n') = false := by
  unfold fileOf at h
  cases hl : fileChars p.data with
  | none => rw [hl] at h; cases h
  | some m =>
    rw [hl] at h
    injection h with h
    obtain ⟨w, c, hw, hall, hc⟩ := fileChars_shape _ _ hl
    exact ⟨w, c, by rw [← h]; exact hw, hall, hc⟩

/-! ## Claims -/

/-- Claim C1 (code bug, evaluation at the failing input): for the
remote URI `gs://mybucket/data/region.shp` with the complete remote
shapefile (`data/region.shp`, `data/region.dbf`, `data/region.shx`) in
the store, the dispatcher does invoke the remote fetcher exactly three
times, once per geospatial extension, and does delegate to the
geospatial reader on the staged `.shp` path — but the targets passed
are `/region.shp.dbf`, `/region.shp.shp`, `/region.shp.shx`, so the
base-name substring test matches only `region.shp`: every call stages
`/tmp/region.shp` and the `.dbf`/`.shx` sibling files are never
staged, defeating the sibling staging the claim (and the source's own
`GEO_EXTENSIONS` loop) describes. -/
theorem C1_remote_shp_staging_bug :
    read_file_type storeGeo "/tmp" "gs://mybucket/data/region.shp" [] =
      Except.ok
        ([⟨"/region.shp.dbf", ["/tmp/region.shp"], some "/tmp/region.shp"⟩,
          ⟨"/region.shp.shp", ["/tmp/region.shp"], some "/tmp/region.shp"⟩,
          ⟨"/region.shp.shx", ["/tmp/region.shp"], some "/tmp/region.shp"⟩],
         ReaderCall.geo (some "/tmp/region.shp") []) := by
  rfl

/-- Claim C2 (amended): `load_data` fails with the path-not-found
error carrying exactly the offending path precisely when the path is
neither an existing file, nor contains `gs://`, nor is an existing
directory — so that error arises in no other situation.  (That it is
the only error the layer raises itself is refuted by the
counterexample: the dispatcher's own extraction can raise an unhandled
attribute error.) -/
theorem C2_pathNotFound_iff (fs : FS) (store : Store) (t p q : String)
    (af : Bool) (kw : Options) :
    load_data fs store t p af kw = Except.error (LoadErr.pathNotFound q) ↔
      fs.isFile p = false ∧ strContains p "gs://" = false
        ∧ fs.isDir p = false ∧ q = p := by
  constructor
  · intro h
    unfold load_data at h
    by_cases hc : (fs.isFile p || strContains p "gs://") = true
    · rw [if_pos hc] at h
      exfalso
      cases hr : read_file_type store t p kw with
      | ok v => rw [hr] at h; simp [Except.map] at h
      | error e =>
        rw [hr] at h
        have he := read_file_type_error store t p kw e hr
        subst he
        simp [Except.map] at h
    · rw [if_neg hc] at h
      have hc' : fs.isFile p = false ∧ strContains p "gs://" = false := by
        constructor <;>
          [exact Bool.eq_false_iff.mpr (fun hh => hc (by rw [hh]; simp));
           exact Bool.eq_false_iff.mpr (fun hh => hc (by rw [hh]; simp))]
      by_cases hd : fs.isDir p = true
      · rw [if_pos hd] at h
        simp at h
      · rw [if_neg hd] at h
        injection h with h
        injection h with h
        exact ⟨hc'.1, hc'.2, Bool.eq_false_iff.mpr hd, h.symm⟩
  · rintro ⟨hf, hg, hd, hq⟩
    rw [hq]
    unfold load_data
    have hc : (fs.isFile p || strContains p "gs://") = false := by rw [hf, hg]; rfl
    rw [hc]
    simp only [Bool.false_eq_true, if_false, hd, if_false]

/-- Counterexample to Claim C2 as stated: with collaborators that
never fail, `load_data` on `gs://b/my.file.shp` still errors — with
the layer's own unhandled attribute error, not a path-not-found — so
path-not-found is not the only error the layer raises itself. -/
theorem C2_counterexample :
    load_data fsEmpty storeEmpty "/tmp" "gs://b/my.file.shp" false [] =
      Except.error LoadErr.attributeError := by
  rfl

/-- Claim C3: the remote fetcher downloads exactly the listed objects
whose non-empty base name is a substring of the target filename, in
listing order, each to the base-named file in the temporary directory;
and whenever it returns a path, that path is the temporary path of a
downloaded base name containing `.shp`. -/
theorem C3_fetcher_characterization (store : Store) (t fp bucket : String)
    (pfx : Option String) (kw : Options) :
    (download_gcs_file store t fp bucket pfx kw).1
        = (selNames fp (store.listBlobs bucket pfx (popKw "max_results" kw).1)).map
            (joinPath t)
      ∧ ∀ r, (download_gcs_file store t fp bucket pfx kw).2 = some r →
          ∃ f ∈ selNames fp (store.listBlobs bucket pfx (popKw "max_results" kw).1),
            strContains f ".shp" = true ∧ r = joinPath t f := by
  constructor
  · simp only [download_gcs_file]
    simpa using gcsLoop_fst t fp _ [] none
  · intro r h
    simp only [download_gcs_file] at h
    rcases gcsLoop_snd_some t fp _ [] none r h with hl | hr
    · exact hl
    · cases hr

/-- Witness for C3 at a concrete store and target. -/
theorem C3_fetcher_characterization_witness :
    (download_gcs_file storeGeo "/tmp" "/region.shp.shp" "mybucket"
          (some "mybucket/data/") []).1
        = (selNames "/region.shp.shp"
            (storeGeo.listBlobs "mybucket" (some "mybucket/data/")
              (popKw "max_results" ([] : Options)).1)).map (joinPath "/tmp")
      ∧ ∃ f ∈ selNames "/region.shp.shp"
            (storeGeo.listBlobs "mybucket" (some "mybucket/data/")
              (popKw "max_results" ([] : Options)).1),
          strContains f ".shp" = true ∧ "/tmp/region.shp" = joinPath "/tmp" f :=
  ⟨(C3_fetcher_characterization storeGeo "/tmp" "/region.shp.shp" "mybucket"
      (some "mybucket/data/") []).1,
   (C3_fetcher_characterization storeGeo "/tmp" "/region.shp.shp" "mybucket"
      (some "mybucket/data/") []).2 "/tmp/region.shp" (by decide)⟩

/-- Claim C4: on an existing directory, `load_data` with the recursion
flag false returns one full-text row per immediate `.txt` file entry
that is a file (nested and non-file entries excluded), in listing
order, read with the popped encoding option; with the flag true, one
row per `.txt` file anywhere in the walk. -/
theorem C4_directory_rows (fs : FS) (store : Store) (t d : String)
    (kw : Options) (h1 : fs.isFile d = false)
    (h2 : strContains d "gs://" = false) (h3 : fs.isDir d = true) :
    load_data fs store t d false kw
        = Except.ok (LoadResult.textRows (topRows fs d (encOf kw)))
      ∧ load_data fs store t d true kw
        = Except.ok (LoadResult.textRows (walkRows fs d (encOf kw))) := by
  refine ⟨?_, ?_⟩
  · simpa using load_data_dir fs store t d false kw h1 h2 h3
  · simpa using load_data_dir fs store t d true kw h1 h2 h3

/-- Witness for C4 on a concrete directory: the non-recursive scan
returns only the top-level text file, the recursive scan also the
nested one. -/
theorem C4_directory_rows_witness :
    fsDir.isFile "/d" = false ∧ strContains "/d" "gs://" = false
      ∧ fsDir.isDir "/d" = true
      ∧ load_data fsDir storeEmpty "/tmp" "/d" false []
          = Except.ok (LoadResult.textRows (topRows fsDir "/d" (encOf [])))
      ∧ load_data fsDir storeEmpty "/tmp" "/d" true []
          = Except.ok (LoadResult.textRows (walkRows fsDir "/d" (encOf [])))
      ∧ topRows fsDir "/d" (encOf []) = ["alpha"]
      ∧ walkRows fsDir "/d" (encOf []) = ["alpha", "gamma"] :=
  ⟨by decide, by decide, by decide,
   (C4_directory_rows fsDir storeEmpty "/tmp" "/d" [] (by decide) (by decide)
     (by decide)).1,
   (C4_directory_rows fsDir storeEmpty "/tmp" "/d" [] (by decide) (by decide)
     (by decide)).2,
   by decide, by decide⟩

/-- Claim C5: when no kept (downloaded) base name contains `.shp`, the
remote fetcher returns the empty result — it is a total function, so
no error is raised. -/
theorem C5_no_shp_returns_none (store : Store) (t fp bucket : String)
    (pfx : Option String) (kw : Options)
    (h : ∀ f ∈ selNames fp (store.listBlobs bucket pfx (popKw "max_results" kw).1),
        strContains f ".shp" = false) :
    (download_gcs_file store t fp bucket pfx kw).2 = none := by
  simp only [download_gcs_file]
  exact gcsLoop_snd_none t fp _ [] none h

/-- Witness for C5: a store whose objects are a text file and a folder
placeholder. -/
theorem C5_no_shp_returns_none_witness :
    (∀ f ∈ selNames "/notes.txt"
        (storeTxt.listBlobs "b" (some "data/") (popKw "max_results" ([] : Options)).1),
        strContains f ".shp" = false)
      ∧ (download_gcs_file storeTxt "/tmp" "/notes.txt" "b" (some "data/") []).2
          = none :=
  ⟨by decide,
   C5_no_shp_returns_none storeTxt "/tmp" "/notes.txt" "b" (some "data/") []
     (by decide)⟩

/-- Claim C6: extension extraction is total, matching is case-sensitive
and exact, and every path whose extension is not exactly one of
`.csv`, `.json`, `.shp`, `.xlsx` is delegated to the CSV reader with
the popped `sep` option, defaulting to the newline character. -/
theorem C6_default_branch (store : Store) (t p : String) (kw : Options)
    (h : splitextExt p ∉ ([".csv", ".json", ".shp", ".xlsx"] : List String)) :
    read_file_type store t p kw =
      Except.ok ([], ReaderCall.csvSep p ((popKw "sep" kw).1.getD (Val.str "\n"))
        (popKw "sep" kw).2) := by
  have h1 : (splitextExt p == ".csv") = false := by
    simp only [beq_eq_false_iff_ne, ne_eq]
    intro hh; exact h (by rw [hh]; simp)
  have h2 : (splitextExt p == ".json") = false := by
    simp only [beq_eq_false_iff_ne, ne_eq]
    intro hh; exact h (by rw [hh]; simp)
  have h3 : (splitextExt p == ".shp") = false := by
    simp only [beq_eq_false_iff_ne, ne_eq]
    intro hh; exact h (by rw [hh]; simp)
  have h4 : (splitextExt p == ".xlsx") = false := by
    simp only [beq_eq_false_iff_ne, ne_eq]
    intro hh; exact h (by rw [hh]; simp)
  simp only [read_file_type, h1, h2, h3, h4, Bool.false_eq_true, if_false]

/-- Witness for C6 at the uppercase path `a.CSV` with a caller-supplied
separator. -/
theorem C6_default_branch_witness :
    splitextExt "a.CSV" ∉ ([".csv", ".json", ".shp", ".xlsx"] : List String)
      ∧ read_file_type storeEmpty "/tmp" "a.CSV"
            [("sep", Val.str "|"), ("x", Val.nat 3)] =
          Except.ok ([], ReaderCall.csvSep "a.CSV" (Val.str "|")
            [("x", Val.nat 3)]) :=
  ⟨by decide,
   C6_default_branch storeEmpty "/tmp" "a.CSV" [("sep", Val.str "|"), ("x", Val.nat 3)]
     (by decide)⟩

/-- Claim C7: `.csv` paths go to the CSV reader with the options
forwarded unmodified; `.json` paths go to the JSON reader with the
popped `lines` value (default true) and the remaining options without
the `lines` key. -/
theorem C7_csv_json_forwarding (store : Store) (t p : String) (kw : Options) :
    (splitextExt p = ".csv" →
        read_file_type store t p kw = Except.ok ([], ReaderCall.csv p kw))
      ∧ (splitextExt p = ".json" →
        read_file_type store t p kw =
          Except.ok ([], ReaderCall.json p
            ((List.lookup "lines" kw).getD (Val.bool true))
            (List.filter (fun kv => kv.1 != "lines") kw))) := by
  constructor
  · intro h
    simp [read_file_type, h]
  · intro h
    simp [read_file_type, h, popKw]

/-- Witness for C7: a `.csv` path with options passed through, and a
`.json` path whose caller-supplied `lines` value is used and removed
from the forwarded options. -/
theorem C7_csv_json_forwarding_witness :
    splitextExt "a.csv" = ".csv"
      ∧ read_file_type storeEmpty "/tmp" "a.csv" [("sep", Val.str ",")] =
          Except.ok ([], ReaderCall.csv "a.csv" [("sep", Val.str ",")])
      ∧ splitextExt "b.json" = ".json"
      ∧ read_file_type storeEmpty "/tmp" "b.json"
            [("lines", Val.bool false), ("x", Val.nat 1)] =
          Except.ok ([], ReaderCall.json "b.json" (Val.bool false)
            [("x", Val.nat 1)]) :=
  ⟨by decide,
   (C7_csv_json_forwarding storeEmpty "/tmp" "a.csv" [("sep", Val.str ",")]).1
     (by decide),
   by decide,
   (C7_csv_json_forwarding storeEmpty "/tmp" "b.json"
     [("lines", Val.bool false), ("x", Val.nat 1)]).2 (by decide)⟩

/-- Claim C8: the `gs://` marker is detected by substring containment
anywhere in the path; any non-file path containing it is delegated to
the dispatcher and never yields path-not-found, and the directory and
path-not-found branches are reachable only for paths that are neither
existing files nor contain the marker. -/
theorem C8_gs_marker_substring (fs : FS) (store : Store) (t p : String)
    (af : Bool) (kw : Options) :
    (fs.isFile p = false → strContains p "gs://" = true →
        load_data fs store t p af kw
            = (read_file_type store t p kw).map LoadResult.fromReader
          ∧ ∀ q, load_data fs store t p af kw
              ≠ Except.error (LoadErr.pathNotFound q))
      ∧ (∀ rows, load_data fs store t p af kw
            = Except.ok (LoadResult.textRows rows) →
          fs.isFile p = false ∧ strContains p "gs://" = false)
      ∧ (∀ q, load_data fs store t p af kw
            = Except.error (LoadErr.pathNotFound q) →
          fs.isFile p = false ∧ strContains p "gs://" = false) := by
  refine ⟨?_, ?_, ?_⟩
  · intro h1 h2
    have hc : (fs.isFile p || strContains p "gs://") = true := by rw [h1, h2]; rfl
    have hdel : load_data fs store t p af kw
        = (read_file_type store t p kw).map LoadResult.fromReader := by
      unfold load_data
      simp only [hc, eq_self_iff_true, if_true]
    refine ⟨hdel, ?_⟩
    intro q hq
    rw [hdel] at hq
    cases hr : read_file_type store t p kw with
    | ok v => rw [hr] at hq; simp [Except.map] at hq
    | error e =>
      rw [hr] at hq
      have he := read_file_type_error store t p kw e hr
      subst he
      simp [Except.map] at hq
  · intro rows h
    by_cases hc : (fs.isFile p || strContains p "gs://") = true
    · exfalso
      unfold load_data at h
      rw [if_pos hc] at h
      cases hr : read_file_type store t p kw with
      | ok v => rw [hr] at h; simp [Except.map] at h
      | error e => rw [hr] at h; simp [Except.map] at h
    · exact ⟨Bool.eq_false_iff.mpr (fun hh => hc (by rw [hh]; simp)),
        Bool.eq_false_iff.mpr (fun hh => hc (by rw [hh]; simp))⟩
  · intro q h
    by_cases hc : (fs.isFile p || strContains p "gs://") = true
    · exfalso
      unfold load_data at h
      rw [if_pos hc] at h
      cases hr : read_file_type store t p kw with
      | ok v => rw [hr] at h; simp [Except.map] at h
      | error e =>
        rw [hr] at h
        have he := read_file_type_error store t p kw e hr
        subst he
        simp [Except.map] at h
    · exact ⟨Bool.eq_false_iff.mpr (fun hh => hc (by rw [hh]; simp)),
        Bool.eq_false_iff.mpr (fun hh => hc (by rw [hh]; simp))⟩

/-- Witness for C8: nothing at `gs://x/a.csv` exists locally, yet the
call is delegated and no path-not-found arises. -/
theorem C8_gs_marker_substring_witness :
    load_data fsEmpty storeEmpty "/tmp" "gs://x/a.csv" false []
        = (read_file_type storeEmpty "/tmp" "gs://x/a.csv" []).map
            LoadResult.fromReader
      ∧ load_data fsEmpty storeEmpty "/tmp" "gs://x/a.csv" false []
          ≠ Except.error (LoadErr.pathNotFound "gs://x/a.csv") :=
  ⟨((C8_gs_marker_substring fsEmpty storeEmpty "/tmp" "gs://x/a.csv" false []).1
      (by decide) (by decide)).1,
   ((C8_gs_marker_substring fsEmpty storeEmpty "/tmp" "gs://x/a.csv" false []).1
      (by decide) (by decide)).2 "gs://x/a.csv"⟩

/-- Claim C9 (amended): the `file` extraction of the remote-shapefile
branch is partial — it completes only when the path contains a slash,
a run of word characters and hyphens, then any single non-newline
character, then `shp` (the dot in the source pattern is unescaped) —
and on `gs://b/my.file.shp`, which has no such segment, the dispatcher
raises the unhandled attribute error instead of any specified error of
the layer. -/
theorem C9_extraction_partial :
    read_file_type storeEmpty "/tmp" "gs://b/my.file.shp" []
        = Except.error LoadErr.attributeError
      ∧ ∀ p s : String, fileOf p = some s →
          ∃ w c, s.data = '/' :: (w ++ [c, 's', 'h', 'p'])
            ∧ w.all isWordDash = true ∧ (c == '\n') = false :=
  ⟨by rfl, fun p s h => fileOf_shape p s h⟩

/-- Witness for C9's completion shape at a well-formed remote path. -/
theorem C9_extraction_partial_witness :
    fileOf "gs://b/data/region.shp" = some "/region.shp"
      ∧ ∃ w c, ("/region.shp" : String).data = '/' :: (w ++ [c, 's', 'h', 'p'])
          ∧ w.all isWordDash = true ∧ (c == '\n') = false :=
  ⟨by decide,
   C9_extraction_partial.2 "gs://b/data/region.shp" "/region.shp" (by decide)⟩

/-- Counterexample to Claim C9 as stated: `gs://b/aXshp.my.shp` has no
`/`-delimited word-character segment followed by the literal `.shp`
(the spec-worded condition fails), yet the extraction completes — the
unescaped dot of the pattern matches the `X` — and the dispatcher runs
to the geospatial reader. -/
theorem C9_counterexample :
    specFileSearch "gs://b/aXshp.my.shp" = none
      ∧ splitextExt "gs://b/aXshp.my.shp" = ".shp"
      ∧ read_file_type storeEmpty "/tmp" "gs://b/aXshp.my.shp" [] =
          Except.ok
            ([⟨"/aXshp.dbf", [], none⟩, ⟨"/aXshp.shp", [], none⟩,
              ⟨"/aXshp.shx", [], none⟩],
             ReaderCall.geo none []) := by
  refine ⟨by rfl, by rfl, by rfl⟩

/-- Claim C10: an existing directory with no `.txt` files anywhere
yields the empty row list, for both values of the recursion flag, and
no error. -/
theorem C10_no_txt_empty_table (fs : FS) (store : Store) (t d : String)
    (kw : Options) (af : Bool) (h1 : fs.isFile d = false)
    (h2 : strContains d "gs://" = false) (h3 : fs.isDir d = true)
    (h4 : ∀ f ∈ fs.listdir d, strEndsWith f ".txt" = false)
    (h5 : ∀ rf ∈ fs.walk d, ∀ f ∈ rf.2, strEndsWith f ".txt" = false) :
    load_data fs store t d af kw = Except.ok (LoadResult.textRows []) := by
  rw [load_data_dir fs store t d af kw h1 h2 h3]
  have htop : topRows fs d (encOf kw) = [] := by
    unfold topRows
    have : (fs.listdir d).filter
        (fun f => fs.isFile (joinPath d f) && strEndsWith f ".txt") = [] := by
      rw [List.filter_eq_nil_iff]
      intro f hf
      simp [h4 f hf]
    rw [this]
    rfl
  have hwalk : walkRows fs d (encOf kw) = [] := by
    unfold walkRows
    rw [List.flatMap_eq_nil_iff]
    intro rf hrf
    have : rf.2.filter (fun f => strEndsWith f ".txt") = [] := by
      rw [List.filter_eq_nil_iff]
      intro f hf
      simp [h5 rf hrf f hf]
    rw [this]
    rfl
  cases af with
  | false => rw [if_neg (by simp), htop]
  | true => rw [if_pos rfl, hwalk]

/-- Witness for C10 on a concrete empty directory, both flag values. -/
theorem C10_no_txt_empty_table_witness :
    load_data fsDirEmpty storeEmpty "/tmp" "/e" false []
        = Except.ok (LoadResult.textRows [])
      ∧ load_data fsDirEmpty storeEmpty "/tmp" "/e" true []
          = Except.ok (LoadResult.textRows []) :=
  ⟨C10_no_txt_empty_table fsDirEmpty storeEmpty "/tmp" "/e" [] false (by decide)
     (by decide) (by decide) (by decide) (by decide),
   C10_no_txt_empty_table fsDirEmpty storeEmpty "/tmp" "/e" [] true (by decide)
     (by decide) (by decide) (by decide) (by decide)⟩

end LoadData
